/-
  Verification of the simple-ftp-server specification against its Rust sources.

  Shallow embedding conventions:
  * Wire text and path fragments are byte sequences, modelled as `List Nat`
    (each entry an octet value; ASCII where the source treats text as ASCII).
  * Rust `Result<T, io::Error>` becomes `Except IoErr T`; `Option<T>` becomes
    `Option T`.
  * Filesystem state is a function from real paths (segment lists) to a
    `FileKind`, passed explicitly to the operations that consult it.
  * Machine integers are `Nat`; the places where Rust width matters (u8, u16)
    carry explicit bounds or are produced bounded by construction.
-/
import Mathlib

namespace FtpServer

/-- A byte string: the contents of a Rust `&str`/`String`/`&[u8]` as octets. -/
abbrev Bytes := List Nat

instance {e a : Type} [DecidableEq e] [DecidableEq a] : DecidableEq (Except e a) := fun x y =>
  match x, y with
  | .ok v, .ok w =>
    if h : v = w then .isTrue (by rw [h])
    else .isFalse (by intro hc; cases hc; exact h rfl)
  | .error v, .error w =>
    if h : v = w then .isTrue (by rw [h])
    else .isFalse (by intro hc; cases hc; exact h rfl)
  | .ok _, .error _ => .isFalse (by intro hc; cases hc)
  | .error _, .ok _ => .isFalse (by intro hc; cases hc)

/-! ## Byte-string helpers shared by several components -/

/-- Split a byte string on a separator byte, mirroring Rust `str::split(sep)`:
`"a,b"` gives `["a", "b"]`, a trailing separator yields a trailing empty
chunk, and the empty string yields one empty chunk. -/
def splitByte (sep : Nat) : Bytes → List Bytes
  | [] => [[]]
  | b :: rest =>
    if b = sep then [] :: splitByte sep rest
    else
      match splitByte sep rest with
      | [] => [[b]]
      | chunk :: chunks => (b :: chunk) :: chunks

/-- Join byte strings with a separator byte (the shape produced by Rust
`format!("{},{},…")` and by path concatenation). -/
def joinByte (sep : Nat) : List Bytes → Bytes
  | [] => []
  | [s] => s
  | s :: rest => s ++ sep :: joinByte sep rest

/-- Decimal digit as an ASCII byte (`'0' + d`), as produced by Rust's
`Display` for unsigned integers. -/
def digitByte (d : Nat) : Nat := 48 + d

/-- Fuel-driven core of the decimal printer (structural recursion on the
fuel keeps every use kernel-reducible; `n + 1` units always suffice since the
argument at least halves each step). -/
def decimalBytesAux : Nat → Nat → Bytes
  | 0, _ => []
  | fuel + 1, n =>
    if n < 10 then [digitByte n]
    else decimalBytesAux fuel (n / 10) ++ [digitByte (n % 10)]

/-- Decimal representation of a `Nat` as ASCII bytes, most significant digit
first: the output of Rust `format!("{}", n)` for an unsigned integer. -/
def decimalBytes (n : Nat) : Bytes := decimalBytesAux (n + 1) n

/-- Is the byte an ASCII decimal digit? -/
def isDigitByte (b : Nat) : Bool := 48 ≤ b && b ≤ 57

/-- Accumulate decimal digits left to right, failing on any non-digit byte.
Mirrors the digit loop of Rust `from_str_radix` (radix 10). -/
def parseDigitsAux : Nat → Bytes → Option Nat
  | acc, [] => some acc
  | acc, b :: rest =>
    if isDigitByte b then parseDigitsAux (10 * acc + (b - 48)) rest else none

/-- Rust `str::parse::<u8>()`: an optional leading `+`, then a non-empty run
of decimal digits whose value fits in `u8`.  (For unsigned targets a leading
`-` is not treated as a sign, so it fails as a non-digit; a value above 255
makes Rust report overflow, observably the same `Err` as any other failure.) -/
def parseU8core (digits : Bytes) : Option Nat :=
  if digits.isEmpty then none
  else match parseDigitsAux 0 digits with
    | none => none
    | some v => if v ≤ 255 then some v else none

def parseU8 (s : Bytes) : Option Nat :=
  parseU8core (if s.head? = some 43 then s.tail else s)

/-! ## Host-port codec (`src/ftp/src/hostport.rs`) -/

/-- Embeds `HostPort`: an IPv4 address (four octets) plus a 16-bit port, with the
Rust `u8`/`u16` field types rendered as `Nat`s (bounds are carried by the
theorems that need them). -/
structure HostPort where
  ip0 : Nat
  ip1 : Nat
  ip2 : Nat
  ip3 : Nat
  port : Nat
deriving DecidableEq, Repr

/-- Embeds `fallible_iterator::convert(…).collect()` over `parse::<u8>` results:
collect all parsed components, failing as soon as one component fails. -/
def collectU8 : List Bytes → Option (List Nat)
  | [] => some []
  | c :: rest =>
    match parseU8 c with
    | none => none
    | some v =>
      match collectU8 rest with
      | none => none
      | some vs => some (v :: vs)

namespace HostPort

/-- Embeds `impl FromStr for HostPort`: split the input on commas, parse every
component as a `u8` (the whole parse fails if any component fails), require
at least six components, and build the address from the first six.  The tail
beyond six components is ignored, exactly as in the source. -/
def fromStr (s : Bytes) : Option HostPort :=
  match collectU8 (splitByte 44 s) with
  | none => none
  | some nums =>
    if nums.length < 6 then none
    else some { ip0 := nums.getD 0 0, ip1 := nums.getD 1 0,
                ip2 := nums.getD 2 0, ip3 := nums.getD 3 0,
                port := (nums.getD 4 0) <<< 8 + nums.getD 5 0 }

/-- Embeds `impl ToString for HostPort`: emit `a,b,c,d,p1,p2` where `p1 = port >> 8`
and `p2 = port & 0xFF`, each rendered in decimal. -/
def toWire (hp : HostPort) : Bytes :=
  joinByte 44
    [decimalBytes hp.ip0, decimalBytes hp.ip1, decimalBytes hp.ip2,
     decimalBytes hp.ip3, decimalBytes (hp.port >>> 8),
     decimalBytes (hp.port &&& 0xFF)]

end HostPort

/-- ASCII byte string of a Lean string literal (used to write concrete wire
text and path fragments compactly). -/
def strB (s : String) : Bytes := s.toList.map Char.toNat

/-! ## Replies and error taxonomy (`src/ftp/src/reply.rs`, `command.rs`,
`client.rs`) -/

/-- Embeds `Reply` (reply.rs): one variant per emitted status line; the two
parameterized variants carry their parameter. -/
inductive Reply where
  | openingDataConnection
  | commandOk
  | commandNotImplemented
  | directoryStatus
  | serviceReady
  | serviceClosing
  | dataConnectionOpen
  | closingDataConnection
  | enteringPassiveMode (hp : HostPort)
  | userLoggedIn
  | fileActionOk
  | created (pathname : Bytes)
  | usernameOk
  | pendingFurtherInformation
  | serviceNotAvailable
  | cantOpenDataConnection
  | connectionClosed
  | fileActionNotTaken
  | localProcessingError
  | insufficientStorageSpace
  | syntaxError
  | syntaxErrorArg
  | notImplemented
  | badCommandSequence
  | badParameter
  | notLoggedIn
  | needAccountForStoring
  | fileUnavailable
  | pageTypeUnknown
  | exceededStorageAllocation
  | fileNameNotAllowed
deriving DecidableEq

/-- Embeds `Reply::status_code` (reply.rs). -/
def Reply.statusCode : Reply → Nat
  | .openingDataConnection => 150
  | .commandOk => 200
  | .commandNotImplemented => 202
  | .directoryStatus => 212
  | .serviceReady => 220
  | .serviceClosing => 221
  | .dataConnectionOpen => 225
  | .closingDataConnection => 226
  | .enteringPassiveMode _ => 227
  | .userLoggedIn => 230
  | .fileActionOk => 250
  | .created _ => 257
  | .usernameOk => 331
  | .pendingFurtherInformation => 350
  | .serviceNotAvailable => 421
  | .cantOpenDataConnection => 425
  | .connectionClosed => 426
  | .fileActionNotTaken => 450
  | .localProcessingError => 451
  | .insufficientStorageSpace => 452
  | .syntaxError => 500
  | .syntaxErrorArg => 501
  | .notImplemented => 502
  | .badCommandSequence => 503
  | .badParameter => 504
  | .notLoggedIn => 530
  | .needAccountForStoring => 532
  | .fileUnavailable => 550
  | .pageTypeUnknown => 551
  | .exceededStorageAllocation => 552
  | .fileNameNotAllowed => 553

/-- Embeds `CommandError` (command.rs). -/
inductive CommandError where
  | argMissing
  | badArg
  | invalidCommand
deriving DecidableEq

/-- Embeds `AuthError` (client.rs): the unauthenticated-session errors; `PWD` gets
its own variant because RFC 959 does not allow 530 as a reply to PWD. -/
inductive AuthError where
  | notLoggedIn
  | pwdWhileNotLoggedIn
deriving DecidableEq

/-- The `std::io::ErrorKind` values distinguished by the server (the reply
conversion and the data-transfer operations); `other` stands for every kind
the conversion's catch-all arm receives. -/
inductive IoErr where
  | notFound
  | permissionDenied
  | connectionRefused
  | connectionReset
  | connectionAborted
  | alreadyExists
  | invalidInput
  | invalidData
  | timedOut
  | writeZero
  | outOfMemory
  | notConnected
  | other
deriving DecidableEq

/-- Embeds `impl From<Error> for Reply`, `CommandError` arm (reply.rs). -/
def Reply.ofCommandError : CommandError → Reply
  | .argMissing => .syntaxErrorArg
  | .badArg => .badParameter
  | .invalidCommand => .syntaxError

/-- Embeds `impl From<Error> for Reply`, `std::io::Error` arm (reply.rs). -/
def Reply.ofIoErr : IoErr → Reply
  | .notFound => .fileUnavailable
  | .permissionDenied => .fileUnavailable
  | .connectionRefused => .connectionClosed
  | .connectionReset => .connectionClosed
  | .connectionAborted => .connectionClosed
  | .alreadyExists => .fileNameNotAllowed
  | .invalidInput => .syntaxErrorArg
  | .invalidData => .badCommandSequence
  | .timedOut => .cantOpenDataConnection
  | .writeZero => .localProcessingError
  | .outOfMemory => .localProcessingError
  | .notConnected => .localProcessingError
  | .other => .localProcessingError

/-- Embeds `impl From<Error> for Reply`, `AuthError` arm (reply.rs). -/
def Reply.ofAuthError : AuthError → Reply
  | .notLoggedIn => .notLoggedIn
  | .pwdWhileNotLoggedIn => .fileUnavailable

/-! ## Data representation enums (`src/ftp/src/data_transfer_process.rs`) -/

/-- Embeds `DataFormat`. -/
inductive DataFormat where
  | nonPrint
  | telnetFormatEffectors
  | carriageControl
deriving DecidableEq

/-- Embeds `DataType`. -/
inductive DataType where
  | ascii (f : DataFormat)
  | ebcdic (f : DataFormat)
  | image
  | local (byteSize : Nat)
deriving DecidableEq

/-- Embeds `DataStructure`. -/
inductive DataStructure where
  | fileStructure
  | recordStructure
  | pageStructure
deriving DecidableEq

/-- Embeds `TransferMode`. -/
inductive TransferMode where
  | stream
  | block
  | compressed
deriving DecidableEq

/-- strum `FromStr` for `DataType` (no `ascii_case_insensitive` on this
enum, so the match is exact); field payloads start from their defaults. -/
def DataType.fromStr (s : Bytes) : Option DataType :=
  if s = strB "A" then some (.ascii .nonPrint)
  else if s = strB "E" then some (.ebcdic .nonPrint)
  else if s = strB "I" then some .image
  else if s = strB "L" then some (.local 0)
  else none

/-- strum `FromStr` for `DataFormat` (exact match). -/
def DataFormat.fromStr (s : Bytes) : Option DataFormat :=
  if s = strB "N" then some .nonPrint
  else if s = strB "T" then some .telnetFormatEffectors
  else if s = strB "C" then some .carriageControl
  else none

/-- strum `FromStr` for `DataStructure` (exact match). -/
def DataStructure.fromStr (s : Bytes) : Option DataStructure :=
  if s = strB "F" then some .fileStructure
  else if s = strB "R" then some .recordStructure
  else if s = strB "P" then some .pageStructure
  else none

/-- strum `FromStr` for `TransferMode` (exact match). -/
def TransferMode.fromStr (s : Bytes) : Option TransferMode :=
  if s = strB "S" then some .stream
  else if s = strB "B" then some .block
  else if s = strB "C" then some .compressed
  else none

/-! ## Commands and the command parser (`src/ftp/src/command.rs`) -/

/-- Embeds `Command` (command.rs): the typed command variants. -/
inductive Command where
  | user (name : Bytes)
  | pass (password : Bytes)
  | quit
  | port (hp : HostPort)
  | typ (t : DataType)
  | stru (s : DataStructure)
  | mode (m : TransferMode)
  | noop
  | retr (path : Bytes)
  | pasv
  | nlst (path : Option Bytes)
  | stor (path : Bytes)
  | pwd
  | cwd (path : Bytes)
  | mkd (path : Bytes)
  | dele (path : Bytes)
  | rnfr (path : Bytes)
  | rnto (path : Bytes)
  | cdup
  | list (path : Bytes)
  | acct
  | smnt
  | rein
  | stou
  | appe
  | allo
  | rest
  | abor
  | rmd
  | site
  | syst
  | stat
  | help
deriving DecidableEq

/-- Rust `str::split_once(sep)`: the text before the first separator and the
text after it, or `none` when the separator does not occur. -/
def splitOnce (sep : Nat) : Bytes → Option (Bytes × Bytes)
  | [] => none
  | b :: tl =>
    if b = sep then some ([], tl)
    else (splitOnce sep tl).map (fun pr => (b :: pr.1, pr.2))

/-- ASCII uppercase of one byte (`a`–`z` mapped onto `A`–`Z`). -/
def toUpperByte (b : Nat) : Nat := if 97 ≤ b ∧ b ≤ 122 then b - 32 else b

/-- strum `FromStr` for `Command` with `ascii_case_insensitive`: the verb is
matched against each variant name ignoring ASCII case; variants with fields
start from the fields' defaults. -/
def Command.fromStr (s : Bytes) : Option Command :=
  let u := s.map toUpperByte
  if u = strB "USER" then some (.user [])
  else if u = strB "PASS" then some (.pass [])
  else if u = strB "QUIT" then some .quit
  else if u = strB "PORT" then some (.port ⟨127, 0, 0, 1, 0⟩)
  else if u = strB "TYPE" then some (.typ (.ascii .nonPrint))
  else if u = strB "STRU" then some (.stru .fileStructure)
  else if u = strB "MODE" then some (.mode .stream)
  else if u = strB "NOOP" then some .noop
  else if u = strB "RETR" then some (.retr [])
  else if u = strB "PASV" then some .pasv
  else if u = strB "NLST" then some (.nlst none)
  else if u = strB "STOR" then some (.stor [])
  else if u = strB "PWD" then some .pwd
  else if u = strB "CWD" then some (.cwd [])
  else if u = strB "MKD" then some (.mkd [])
  else if u = strB "DELE" then some (.dele [])
  else if u = strB "RNFR" then some (.rnfr [])
  else if u = strB "RNTO" then some (.rnto [])
  else if u = strB "CDUP" then some .cdup
  else if u = strB "LIST" then some (.list [])
  else if u = strB "ACCT" then some .acct
  else if u = strB "SMNT" then some .smnt
  else if u = strB "REIN" then some .rein
  else if u = strB "STOU" then some .stou
  else if u = strB "APPE" then some .appe
  else if u = strB "ALLO" then some .allo
  else if u = strB "REST" then some .rest
  else if u = strB "ABOR" then some .abor
  else if u = strB "RMD" then some .rmd
  else if u = strB "SITE" then some .site
  else if u = strB "SYST" then some .syst
  else if u = strB "STAT" then some .stat
  else if u = strB "HELP" then some .help
  else none

/-- The `TYPE` argument grammar of `Command::parse_line`: the first word
picks the data type; ASCII/EBCDIC take an optional format word, `L` takes a
required `u8` byte size. -/
def parseTypeArg (a : Bytes) : Except CommandError Command :=
  let (dtWord, arg2) := match splitOnce 32 a with
    | some (d, r) => (d, some r)
    | none => (a, none)
  match DataType.fromStr dtWord with
  | none => .error .badArg
  | some t =>
    match t with
    | .ascii _ =>
      match arg2 with
      | none => .ok (.typ (.ascii .nonPrint))
      | some f =>
        match DataFormat.fromStr f with
        | none => .error .badArg
        | some df => .ok (.typ (.ascii df))
    | .ebcdic _ =>
      match arg2 with
      | none => .ok (.typ (.ebcdic .nonPrint))
      | some f =>
        match DataFormat.fromStr f with
        | none => .error .badArg
        | some df => .ok (.typ (.ebcdic df))
    | .image => .ok (.typ .image)
    | .local _ =>
      match arg2 with
      | none => .error .argMissing
      | some sz =>
        match parseU8 sz with
        | none => .error .badArg
        | some v => .ok (.typ (.local v))

/-- Embeds `Command::parse_line` (command.rs): split at the first space, look the
verb up case-insensitively, then apply the per-command argument grammar. -/
def parseLine (s : Bytes) : Except CommandError Command :=
  let (cmdWord, arg) := match splitOnce 32 s with
    | some (c, a) => (c, some a)
    | none => (s, none)
  match Command.fromStr cmdWord with
  | none => .error .invalidCommand
  | some cmd =>
    match cmd with
    | .user _ =>
      match arg with
      | none => .error .argMissing
      | some a => .ok (.user a)
    | .pass _ =>
      match arg with
      | none => .error .argMissing
      | some a => .ok (.pass a)
    | .port _ =>
      match arg with
      | none => .error .argMissing
      | some a =>
        match HostPort.fromStr a with
        | none => .error .badArg
        | some hp => .ok (.port hp)
    | .typ _ =>
      match arg with
      | none => .error .argMissing
      | some a => parseTypeArg a
    | .stru _ =>
      match arg with
      | none => .error .argMissing
      | some a =>
        match DataStructure.fromStr a with
        | none => .error .badArg
        | some ds => .ok (.stru ds)
    | .mode _ =>
      match arg with
      | none => .error .argMissing
      | some a =>
        match TransferMode.fromStr a with
        | none => .error .badArg
        | some m => .ok (.mode m)
    | .retr _ =>
      match arg with
      | none => .error .argMissing
      | some a => .ok (.retr a)
    | .stor _ =>
      match arg with
      | none => .error .argMissing
      | some a => .ok (.stor a)
    | .nlst _ => .ok (.nlst arg)
    | .cwd _ =>
      match arg with
      | none => .error .argMissing
      | some a => .ok (.cwd a)
    | .mkd _ =>
      match arg with
      | none => .error .argMissing
      | some a => .ok (.mkd a)
    | .dele _ =>
      match arg with
      | none => .error .argMissing
      | some a => .ok (.dele a)
    | .rnfr _ =>
      match arg with
      | none => .error .argMissing
      | some a => .ok (.rnfr a)
    | .rnto _ =>
      match arg with
      | none => .error .argMissing
      | some a => .ok (.rnto a)
    | c => .ok c

/-- Modelled from the spec: the read–dispatch loop of the final protocol
interpreter is missing from the sources (the draft `handle_client` in
protocol_interpreter.rs predates per-error replies and answers 500 to every
read error, while `ftpserver.rs` constructs a `ProtocolInterpreter` with a
user store that no file under src defines).  Per spec §4.8 step 3 the loop
answers a failed parse with the reply converted from the parse error — the
conversion itself, `Reply.ofCommandError`, is embedded from reply.rs. -/
def parseErrorTerminalReply (line : Bytes) : Option Reply :=
  match parseLine line with
  | .error e => some (Reply.ofCommandError e)
  | .ok _ => none

/-! ## Sessions, user store, and PASS handling -/

/-- One record of the user store (`ftpserver.rs` inserts
`User { password, dir }` keyed by username). -/
structure UserRec where
  password : Bytes
  dir : Bytes
deriving DecidableEq

/-- Username-keyed lookup in the user store. -/
def lookupUser : List (Bytes × UserRec) → Bytes → Option UserRec
  | [], _ => none
  | (u, r) :: tl, name => if u = name then some r else lookupUser tl name

/-- Per-connection session state relevant to authentication: the username
recorded by USER and the authentication state (`none` = Unauthenticated,
`some rootDir` = Authenticated with that user's real root). -/
structure Session where
  username : Option Bytes
  authRoot : Option Bytes
deriving DecidableEq

/-- Modelled from the spec: the PASS handler of the final protocol
interpreter is missing from the sources (the draft `password` in
protocol_interpreter.rs stores the password and replies 230 unconditionally,
and cannot be the interpreter `ftpserver.rs` constructs with a user store;
the test suite requires wrong credentials to fail).  Per spec §4.7/§4.8:
with no prior USER reply 503; with a prior USER reply 230 and authorize when
the stored credentials match, else 530. -/
def passCommand (users : List (Bytes × UserRec)) (st : Session)
    (password : Bytes) : Reply × Session :=
  match st.username with
  | none => (.badCommandSequence, st)
  | some u =>
    match lookupUser users u with
    | none => (.notLoggedIn, st)
    | some r =>
      if r.password = password then
        (.userLoggedIn, { st with authRoot := some r.dir })
      else (.notLoggedIn, st)

/-! ## The unauthenticated command gate (`src/ftp/src/client.rs`) -/

/-- The commands dispatched through the session's `CommandsImpl` object
(client.rs): exactly the operations that need a filesystem or data
channel. -/
inductive GatedCommand where
  | pasv
  | retr
  | stor
  | nlst
  | pwd
  | cwd
  | mkd
  | dele
  | rnfr
  | rnto
  | cdup
  | list
deriving DecidableEq

/-- Embeds `impl CommandsImpl for NotLoggedIn` (client.rs): every method fails;
`pwd` fails with the dedicated `PwdWhileNotLoggedIn` error, every other
method with `NotLoggedIn`. -/
def notLoggedInDispatch : GatedCommand → AuthError
  | .pasv => .notLoggedIn
  | .retr => .notLoggedIn
  | .stor => .notLoggedIn
  | .nlst => .notLoggedIn
  | .pwd => .pwdWhileNotLoggedIn
  | .cwd => .notLoggedIn
  | .mkd => .notLoggedIn
  | .dele => .notLoggedIn
  | .rnfr => .notLoggedIn
  | .rnto => .notLoggedIn
  | .cdup => .notLoggedIn
  | .list => .notLoggedIn

/-! ## The control-line framer (`CrlfStream::read_message`,
`src/ftp/src/protocol_interpreter.rs`) -/

/-- Is the byte a UTF-8 continuation byte (`0x80`–`0xBF`)? -/
def isContByte (b : Nat) : Bool := 0x80 ≤ b && b ≤ 0xBF

/-- UTF-8 validity of a byte sequence, as checked by Rust
`str::from_utf8` (RFC 3629: no overlongs, no surrogates, max U+10FFFF). -/
def utf8Valid : Bytes → Bool
  | [] => true
  | b :: tl =>
    if b < 0x80 then utf8Valid tl
    else if b < 0xC2 then false
    else if b ≤ 0xDF then
      match tl with
      | c1 :: tl2 => isContByte c1 && utf8Valid tl2
      | [] => false
    else if b ≤ 0xEF then
      match tl with
      | c1 :: c2 :: tl3 =>
        (if b = 0xE0 then 0xA0 ≤ c1 && c1 ≤ 0xBF
         else if b = 0xED then 0x80 ≤ c1 && c1 ≤ 0x9F
         else isContByte c1) && isContByte c2 && utf8Valid tl3
      | _ => false
    else if b ≤ 0xF4 then
      match tl with
      | c1 :: c2 :: c3 :: tl4 =>
        (if b = 0xF0 then 0x90 ≤ c1 && c1 ≤ 0xBF
         else if b = 0xF4 then 0x80 ≤ c1 && c1 ≤ 0x8F
         else isContByte c1) && isContByte c2 && isContByte c3 && utf8Valid tl4
      | _ => false
    else false

/-- Byte offset of the first `\r\n` in a chunk (`str::find(CRLF)`). -/
def findCrlf : Bytes → Option Nat
  | 13 :: 10 :: _ => some 0
  | _ :: tl => (findCrlf tl).map (· + 1)
  | [] => none

/-- Outcome of one `read_message` call. -/
inductive ReadOutcome where
  | msg (m : Bytes)
  | connectionAborted
  | panicked
  | noMoreInput
deriving DecidableEq

/-- Embeds `CrlfStream::read_message` over the successive chunks the socket read
returns (`acc` is the `message` accumulator).  A zero-length read fails with
connection-aborted; each chunk is decoded with `from_utf8(...).unwrap()`,
which panics when the chunk is not valid UTF-8; a chunk without `\r\n` is
appended and the loop continues; a chunk with `\r\n` terminates the message
before it (bytes after the terminator are discarded).  Exhausting the
supplied chunks corresponds to the blocking read never returning. -/
def readMessage : List Bytes → Bytes → ReadOutcome
  | [], _ => .noMoreInput
  | chunk :: rest, acc =>
    if chunk.length = 0 then .connectionAborted
    else if !utf8Valid chunk then .panicked
    else
      match findCrlf chunk with
      | none => readMessage rest (acc ++ chunk)
      | some pos => .msg (acc ++ chunk.take pos)

/-! ## The virtual path resolver and data-transfer engine
(`src/ftp/src/data_transfer_process.rs`) -/

/-- What the real filesystem holds at a real path. -/
inductive FileKind where
  | file
  | dir
  | absent
deriving DecidableEq

/-- A filesystem snapshot: the kind of entry at every real path (paths are
segment lists). -/
abbrev Fs := List Bytes → FileKind

/-- The `DataTransferProcess` state that the path and file operations read
and write: the per-user real root, the virtual working directory (segments
under the virtual `/`), the optional accepted data socket, and the pending
rename source. -/
structure Dtp where
  root : List Bytes
  workingDir : List Bytes
  client : Option Unit
  renamingFrom : Option (List Bytes)
deriving DecidableEq

/-- Segments of a client-supplied path: split on `/`, empty components
dropped (Rust `Path` component iteration). -/
def pathSegments (p : Bytes) : List Bytes :=
  (splitByte 47 p).filter (fun s => !s.isEmpty)

/-- One `parse_dot` step: `.` is dropped, `..` pops the previous segment
(a no-op at the root), any other segment is kept. -/
def parseDotStep (acc : List Bytes) (s : Bytes) : List Bytes :=
  if s = [46] then acc
  else if s = [46, 46] then acc.dropLast
  else acc ++ [s]

/-- Embeds `path_dedot::parse_dot` on an absolute path, acting on the segments
under the root. -/
def parseDot (segs : List Bytes) : List Bytes :=
  segs.foldl parseDotStep []

/-- Rust `Path::is_absolute` for the client argument: begins with `/`. -/
def isAbsolutePath (p : Bytes) : Bool := p.head? = some 47

/-- Embeds `DataTransferProcess::build_path`: reject absolute arguments with
`InvalidInput`; otherwise join the argument onto the virtual working
directory, normalize dots (never above the virtual root), strip the leading
root component, and join the result under the real root. -/
def buildPath (st : Dtp) (p : Bytes) : Except IoErr (List Bytes) :=
  if isAbsolutePath p then .error .invalidInput
  else .ok (st.root ++ parseDot (st.workingDir ++ pathSegments p))

/-- Embeds `DataTransferProcess::change_working_dir`: resolve the argument, fail
with `NotFound` when nothing exists at the resolved real path (the source
checks `exists()` only — not that the target is a directory), else store the
re-normalized virtual path. -/
def changeWorkingDir (fs : Fs) (st : Dtp) (p : Bytes) :
    Except IoErr Unit × Dtp :=
  match buildPath st p with
  | .error e => (.error e, st)
  | .ok newPath =>
    if fs newPath = .absent then (.error .notFound, st)
    else (.ok (), { st with workingDir := parseDot (st.workingDir ++ pathSegments p) })

/-- Embeds `DataTransferProcess::send_file`: `self.client.take()` first (failing
with `NotConnected` when no data socket is stored), then resolve the path,
open the file, and stream it; `ioOk` abstracts whether the byte copy itself
succeeds. -/
def sendFile (fs : Fs) (ioOk : Bool) (st : Dtp) (p : Bytes) :
    Except IoErr Unit × Dtp :=
  match st.client with
  | none => (.error .notConnected, st)
  | some _ =>
    let st' := { st with client := none }
    match buildPath st' p with
    | .error e => (.error e, st')
    | .ok path =>
      match fs path with
      | .absent => (.error .notFound, st')
      | .dir => (.error .other, st')
      | .file => (if ioOk then .ok () else .error .connectionReset, st')

/-- Embeds `DataTransferProcess::receive_file`: take the socket, resolve the path,
create/truncate the file (failing when the target is a directory), and
stream bytes into it. -/
def receiveFile (fs : Fs) (ioOk : Bool) (st : Dtp) (p : Bytes) :
    Except IoErr Unit × Dtp :=
  match st.client with
  | none => (.error .notConnected, st)
  | some _ =>
    let st' := { st with client := none }
    match buildPath st' p with
    | .error e => (.error e, st')
    | .ok path =>
      if fs path = .dir then (.error .other, st')
      else if ioOk then (.ok (), st') else (.error .connectionReset, st')

/-- Embeds `DataTransferProcess::send_dir_nlisting`: take the socket, resolve the
argument (absent argument means the current directory), read the directory
(failing unless the target is a directory), and write one name per line. -/
def sendDirNlisting (fs : Fs) (ioOk : Bool) (st : Dtp) (p : Option Bytes) :
    Except IoErr Unit × Dtp :=
  match st.client with
  | none => (.error .notConnected, st)
  | some _ =>
    let st' := { st with client := none }
    match buildPath st' (p.getD []) with
    | .error e => (.error e, st')
    | .ok path =>
      if fs path ≠ .dir then (.error .other, st')
      else if ioOk then (.ok (), st') else (.error .connectionReset, st')

/-! ## Control/data-channel event ordering
(`ProtocolInterpreter::connect_dtp` / `retr` / `stor` / `nlist`) -/

/-- Observable events of one data-bearing command, in program order. -/
inductive Ev where
  | connected
  | connectFailed
  | ctrlReply (code : Nat)
  | payloadByte
deriving DecidableEq

/-- Embeds `ProtocolInterpreter::connect_dtp`: ask the engine to establish the data
connection; on success write 150 on the control channel and report success,
on failure propagate the error without writing 150.  (The engine's `connect`
returns a `Result`, so the draft's already-connected branch cannot occur.) -/
def connectDtpTrace (connectOk : Bool) : List Ev × Bool :=
  if connectOk then ([.connected, .ctrlReply 150], true)
  else ([.connectFailed], false)

/-- The event trace of one data-bearing command (`retr`/`stor`/`nlist`):
`connect_dtp` first; only when it succeeded does the transfer run, emitting
its payload bytes (`prepOk` abstracts whether path resolution and the
file/directory open succeed before any payload byte moves). -/
def dataCommandTrace (connectOk prepOk : Bool) (payload : Nat) : List Ev :=
  let pr := connectDtpTrace connectOk
  if pr.2 then
    pr.1 ++ (if prepOk then List.replicate payload .payloadByte else [])
  else pr.1

/-- Concrete states used by witnesses and counterexamples: a root of one
segment `srv`, virtual working directory `/`, no data socket, no pending
rename. -/
def stSrv : Dtp := ⟨[strB "srv"], [], none, none⟩

/-- A filesystem with a regular file at `srv/f` and the directory `srv`
itself; everything else absent. -/
def fsSrvF : Fs := fun p =>
  if p = [strB "srv", strB "f"] then .file
  else if p = [strB "srv"] then .dir
  else .absent

/-! # Theorems -/

/-! ## Path normalization never escapes the root (C1) -/

lemma mem_foldl_parseDotStep (segs : List Bytes) :
    ∀ acc, (∀ s ∈ acc, s ≠ [46, 46] ∧ s ≠ [46]) →
    ∀ s ∈ segs.foldl parseDotStep acc, s ≠ [46, 46] ∧ s ≠ [46] := by
  induction segs with
  | nil => intro acc hacc s hs; exact hacc s hs
  | cons seg tl ih =>
    intro acc hacc s hs
    simp only [List.foldl_cons] at hs
    refine ih (parseDotStep acc seg) ?_ s hs
    intro t ht
    unfold parseDotStep at ht
    by_cases h1 : seg = [46]
    · simp only [h1, if_pos rfl] at ht
      exact hacc t ht
    · by_cases h2 : seg = [46, 46]
      · simp only [if_neg h1, h2, if_pos rfl] at ht
        exact hacc t (List.dropLast_subset _ ht)
      · simp only [if_neg h1, if_neg h2, List.mem_append,
          List.mem_singleton] at ht
        rcases ht with ht | ht
        · exact hacc t ht
        · subst ht; exact ⟨h2, h1⟩

lemma parseDot_no_dots (segs : List Bytes) :
    ∀ s ∈ parseDot segs, s ≠ [46, 46] ∧ s ≠ [46] := by
  intro s hs
  exact mem_foldl_parseDotStep segs [] (by intro t ht; simp at ht) s hs

/-- C1. Path-resolution safety: whenever `build_path` accepts a
client-supplied relative path, the real path it returns is the per-user
root extended by segments among which no `..` (and no `.`) remains, so the
result is a descendant of the root after normalization — no sequence of
`..` segments escapes. -/
theorem buildPath_descendant_of_root (st : Dtp) (p : Bytes) (R : List Bytes)
    (h : buildPath st p = .ok R) :
    ∃ v, R = st.root ++ v ∧ ∀ s ∈ v, s ≠ [46, 46] ∧ s ≠ [46] := by
  unfold buildPath at h
  by_cases habs : isAbsolutePath p
  · simp [habs] at h
  · simp only [habs, Bool.false_eq_true, if_false, Except.ok.injEq] at h
    exact ⟨_, h.symm, parseDot_no_dots _⟩

/-- C1 witness: with root `srv`, working directory `/docs`, and argument
`../../../etc/x`, the resolver returns a path under `srv` with every dot
segment resolved away. -/
theorem buildPath_descendant_of_root_witness :
    buildPath ⟨[strB "srv"], [strB "docs"], none, none⟩ (strB "../../../etc/x")
      = .ok [strB "srv", strB "etc", strB "x"] ∧
    ∃ v, [strB "srv", strB "etc", strB "x"] = [strB "srv"] ++ v ∧
      ∀ s ∈ v, s ≠ [46, 46] ∧ s ≠ [46] := by
  refine ⟨by decide, ?_⟩
  have h := buildPath_descendant_of_root
    ⟨[strB "srv"], [strB "docs"], none, none⟩ (strB "../../../etc/x")
    [strB "srv", strB "etc", strB "x"] (by decide)
  simpa using h

/-! ## PASS authentication gating (C2, modelled from the spec) -/

/-- C2. PASS gating: the reply to PASS is 230 exactly when a prior USER
named a stored user whose password matches, 503 exactly when no prior USER
was given, and 530 exactly when a USER was given but the credentials do not
match. -/
theorem passCommand_gating (users : List (Bytes × UserRec)) (st : Session)
    (pw : Bytes) :
    ((passCommand users st pw).1.statusCode = 503 ↔ st.username = none) ∧
    ((passCommand users st pw).1.statusCode = 230 ↔
      ∃ u r, st.username = some u ∧ lookupUser users u = some r ∧
        r.password = pw) ∧
    ((passCommand users st pw).1.statusCode = 530 ↔
      ∃ u, st.username = some u ∧
        ∀ r, lookupUser users u = some r → r.password ≠ pw) := by
  obtain ⟨un, ar⟩ := st
  cases un with
  | none =>
    refine ⟨?_, ?_, ?_⟩
    · simp [passCommand, Reply.statusCode]
    · simp only [passCommand, Reply.statusCode]
      constructor
      · intro h; exact absurd h (by decide)
      · rintro ⟨u', r, h1, -, -⟩; cases h1
    · simp only [passCommand, Reply.statusCode]
      constructor
      · intro h; exact absurd h (by decide)
      · rintro ⟨u', h1, -⟩; cases h1
  | some u =>
    cases hl : lookupUser users u with
    | none =>
      simp only [passCommand, hl, Reply.statusCode]
      refine ⟨?_, ?_, ?_⟩
      · constructor
        · intro h; exact absurd h (by decide)
        · intro h; cases h
      · constructor
        · intro h; exact absurd h (by decide)
        · rintro ⟨u', r, h1, h2, -⟩
          injection h1 with h1; subst h1; rw [hl] at h2; cases h2
      · constructor
        · intro _; exact ⟨u, rfl, fun r hr => by rw [hl] at hr; cases hr⟩
        · intro _; trivial
    | some r =>
      by_cases hpw : r.password = pw
      · simp only [passCommand, hl, if_pos hpw, Reply.statusCode]
        refine ⟨?_, ?_, ?_⟩
        · constructor
          · intro h; exact absurd h (by decide)
          · intro h; cases h
        · constructor
          · intro _; exact ⟨u, r, rfl, hl, hpw⟩
          · intro _; trivial
        · constructor
          · intro h; exact absurd h (by decide)
          · rintro ⟨u', h1, hall⟩
            injection h1 with h1; subst h1
            exact absurd hpw (hall r hl)
      · simp only [passCommand, hl, if_neg hpw, Reply.statusCode]
        refine ⟨?_, ?_, ?_⟩
        · constructor
          · intro h; exact absurd h (by decide)
          · intro h; cases h
        · constructor
          · intro h; exact absurd h (by decide)
          · rintro ⟨u', r', h1, h2, hp'⟩
            injection h1 with h1; subst h1
            rw [hl] at h2; injection h2 with h2; subst h2
            exact absurd hp' hpw
        · constructor
          · intro _
            exact ⟨u, rfl, fun r' hr' => by
              rw [hl] at hr'; injection hr' with hr'; subst hr'; exact hpw⟩
          · intro _; trivial

/-! ## Unauthenticated command gate (C3) -/

/-- C3. In the Unauthenticated state every filesystem/data-channel command
is answered through the `NotLoggedIn` implementation and the error-to-reply
conversion with status 530, except PWD, which is answered with 550. -/
theorem notLoggedIn_reply_codes (c : GatedCommand) :
    (Reply.ofAuthError (notLoggedInDispatch c)).statusCode =
      if c = .pwd then 550 else 530 := by
  cases c <;> rfl

/-! ## Data operations always consume the data socket (C10) -/

lemma dtp_client_none_eq (st : Dtp) (h : st.client = none) :
    { st with client := none } = st := by
  cases st; simp_all

/-- C10. Every data operation of the engine removes the stored data socket
before attempting the transfer: whatever the filesystem holds and whether
the transfer succeeds or fails at any stage, the state after `send_file`,
`receive_file`, or `send_dir_nlisting` is the input state with no data
socket, so a new PASV/connect is required before the next transfer. -/
theorem data_ops_consume_socket (fs : Fs) (ioOk : Bool) (st : Dtp)
    (p : Bytes) (po : Option Bytes) :
    (sendFile fs ioOk st p).2 = { st with client := none } ∧
    (receiveFile fs ioOk st p).2 = { st with client := none } ∧
    (sendDirNlisting fs ioOk st po).2 = { st with client := none } := by
  obtain ⟨root, wd, cl, rn⟩ := st
  cases cl with
  | none => exact ⟨rfl, rfl, rfl⟩
  | some sock =>
    refine ⟨?_, ?_, ?_⟩
    · cases hbp : buildPath ⟨root, wd, none, rn⟩ p with
      | error e => simp [sendFile, hbp]
      | ok path => cases hf : fs path <;> cases ioOk <;> simp [sendFile, hbp, hf]
    · cases hbp : buildPath ⟨root, wd, none, rn⟩ p with
      | error e => simp [receiveFile, hbp]
      | ok path => cases hf : fs path <;> cases ioOk <;> simp [receiveFile, hbp, hf]
    · cases hbp : buildPath ⟨root, wd, none, rn⟩ (po.getD []) with
      | error e => simp [sendDirNlisting, hbp]
      | ok path =>
        cases hf : fs path <;> cases ioOk <;> simp [sendDirNlisting, hbp, hf]

/-! ## The framer is not total (C4) -/

/-- C4. The framer is not total on arbitrary input: a command line whose
chunk is not valid UTF-8 (here the single byte `0xFF` before CRLF) makes
`read_message` panic through `from_utf8(...).unwrap()` instead of returning
an error, and a non-ASCII line that is valid UTF-8 (here `é` = `C3 A9`) is
accepted as a message rather than rejected as a parse error. -/
theorem readMessage_panics_on_invalid_utf8 :
    readMessage [[255, 13, 10]] [] = .panicked ∧
    readMessage [[195, 169, 13, 10]] [] = .msg [195, 169] := by decide

/-! ## Parse-error reply mapping (C5) -/

/-- C5. Parse-error reply mapping: whenever `parse_line` rejects a command
line, the terminal reply is the one converted from the parse error, and
that reply's code is 501 exactly for a missing required argument, 504
exactly for an argument that fails to parse, and 500 exactly for an unknown
verb. -/
theorem parse_error_reply_codes (line : Bytes) (e : CommandError)
    (h : parseLine line = .error e) :
    parseErrorTerminalReply line = some (Reply.ofCommandError e) ∧
    ((Reply.ofCommandError e).statusCode = 501 ↔ e = .argMissing) ∧
    ((Reply.ofCommandError e).statusCode = 504 ↔ e = .badArg) ∧
    ((Reply.ofCommandError e).statusCode = 500 ↔ e = .invalidCommand) := by
  refine ⟨?_, ?_, ?_, ?_⟩
  · unfold parseErrorTerminalReply
    rw [h]
  · cases e <;> simp [Reply.ofCommandError, Reply.statusCode]
  · cases e <;> simp [Reply.ofCommandError, Reply.statusCode]
  · cases e <;> simp [Reply.ofCommandError, Reply.statusCode]

/-- C5 witness: `USER` without an argument is rejected with `ArgMissing`,
and the theorem instantiates to the 501 reply for it. -/
theorem parse_error_reply_codes_witness :
    parseErrorTerminalReply (strB "USER")
      = some (Reply.ofCommandError .argMissing) ∧
    ((Reply.ofCommandError CommandError.argMissing).statusCode = 501 ↔
      CommandError.argMissing = .argMissing) ∧
    ((Reply.ofCommandError CommandError.argMissing).statusCode = 504 ↔
      CommandError.argMissing = .badArg) ∧
    ((Reply.ofCommandError CommandError.argMissing).statusCode = 500 ↔
      CommandError.argMissing = .invalidCommand) :=
  parse_error_reply_codes (strB "USER") .argMissing (by decide)

/-! ## CWD postcondition (C8) -/

/-- C8 counterexample: with a regular file at real path `srv/f`, `CWD f`
succeeds and mutates the working directory even though the resolved target
is not a directory — the source checks only `exists()`. -/
theorem changeWorkingDir_file_target_counterexample :
    fsSrvF [strB "srv", strB "f"] = .file ∧
    (changeWorkingDir fsSrvF stSrv (strB "f")).1 = .ok () ∧
    stSrv.workingDir = [] ∧
    (changeWorkingDir fsSrvF stSrv (strB "f")).2.workingDir = [strB "f"] := by
  decide

/-- C8 (amended). `change_working_dir` succeeds and mutates `working_dir`
exactly when the resolved real path exists (whether file or directory); on
an absolute argument, a nonexistent target, or a resolution error it
returns an error and leaves the state unchanged; on success the new
working directory is the dot-normalized join of the old one with the
argument. -/
theorem changeWorkingDir_mutates_iff_target_exists (fs : Fs) (st : Dtp)
    (p : Bytes) :
    ((changeWorkingDir fs st p).1 = .ok () ↔
      ∃ R, buildPath st p = .ok R ∧ fs R ≠ .absent) ∧
    (∀ e, (changeWorkingDir fs st p).1 = .error e →
      (changeWorkingDir fs st p).2 = st) ∧
    ((changeWorkingDir fs st p).1 = .ok () →
      (changeWorkingDir fs st p).2.workingDir =
        parseDot (st.workingDir ++ pathSegments p)) := by
  cases hbp : buildPath st p with
  | error e =>
    refine ⟨?_, ?_, ?_⟩
    · simp [changeWorkingDir, hbp]
    · intro e' _; simp [changeWorkingDir, hbp]
    · intro h; simp [changeWorkingDir, hbp] at h
  | ok R =>
    by_cases habs : fs R = .absent
    · refine ⟨?_, ?_, ?_⟩
      · simp only [changeWorkingDir, hbp]
        rw [if_pos habs]
        constructor
        · intro h; simp at h
        · rintro ⟨R', hR', hne⟩
          injection hR' with hR'
          subst hR'
          exact absurd habs hne
      · intro e' _
        simp only [changeWorkingDir, hbp]
        rw [if_pos habs]
      · intro h
        simp only [changeWorkingDir, hbp] at h
        rw [if_pos habs] at h
        simp at h
    · refine ⟨?_, ?_, ?_⟩
      · simp only [changeWorkingDir, hbp]
        rw [if_neg habs]
        exact ⟨fun _ => ⟨R, rfl, habs⟩, fun _ => rfl⟩
      · intro e' he'
        simp only [changeWorkingDir, hbp] at he'
        rw [if_neg habs] at he'
        simp at he'
      · intro _
        simp only [changeWorkingDir, hbp]
        rw [if_neg habs]

/-- C8 witness: with nothing at real path `srv/g`, `CWD g` fails and the
state is unchanged. -/
theorem changeWorkingDir_unchanged_witness :
    (changeWorkingDir fsSrvF stSrv (strB "g")).2 = stSrv :=
  (changeWorkingDir_mutates_iff_target_exists fsSrvF stSrv (strB "g")).2.1
    .notFound (by decide)

/-! ## 150 before payload (C9) -/

/-- C9. For every data-bearing command, the trace emitted by the
interpreter writes the 150 reply only when the data connection was
established, immediately after the connect event, and every payload byte
comes strictly later; when the connection cannot be established no 150
appears in the trace. -/
theorem data_command_150_ordering (cOk pOk : Bool) (n : Nat) :
    (cOk = false → Ev.ctrlReply 150 ∉ dataCommandTrace cOk pOk n) ∧
    (Ev.ctrlReply 150 ∈ dataCommandTrace cOk pOk n →
      (dataCommandTrace cOk pOk n)[0]? = some .connected ∧
      (dataCommandTrace cOk pOk n)[1]? = some (.ctrlReply 150)) ∧
    (∀ k, (dataCommandTrace cOk pOk n)[k]? = some .payloadByte → 1 < k) := by
  cases cOk with
  | false =>
    refine ⟨?_, ?_, ?_⟩
    · intro _; simp [dataCommandTrace, connectDtpTrace]
    · intro h; simp [dataCommandTrace, connectDtpTrace] at h
    · intro k hk
      simp only [dataCommandTrace, connectDtpTrace] at hk
      rcases k with _ | k
      · simp at hk
      · simp at hk
  | true =>
    refine ⟨?_, ?_, ?_⟩
    · intro h; cases h
    · intro _
      constructor <;> simp [dataCommandTrace, connectDtpTrace]
    · intro k hk
      simp only [dataCommandTrace, connectDtpTrace] at hk
      rcases k with _ | (_ | k)
      · simp at hk
      · simp at hk
      · omega

/-! ## Host-port codec: decimal and splitting lemmas (C6, C7) -/

lemma decimalBytesAux_mem (f : Nat) :
    ∀ n, ∀ b ∈ decimalBytesAux f n, 48 ≤ b ∧ b ≤ 57 := by
  induction f with
  | zero => intro n b hb; simp [decimalBytesAux] at hb
  | succ f ih =>
    intro n b hb
    rw [decimalBytesAux] at hb
    by_cases h : n < 10
    · rw [if_pos h] at hb
      simp only [List.mem_singleton] at hb
      subst hb
      unfold digitByte
      omega
    · rw [if_neg h] at hb
      rcases List.mem_append.mp hb with hb | hb
      · exact ih (n / 10) b hb
      · simp only [List.mem_singleton] at hb
        subst hb
        unfold digitByte
        have := Nat.mod_lt n (show 0 < 10 by omega)
        omega

lemma decimalBytes_digits (n : Nat) :
    ∀ b ∈ decimalBytes n, 48 ≤ b ∧ b ≤ 57 :=
  decimalBytesAux_mem (n + 1) n

lemma decimalBytes_ne_nil (n : Nat) : decimalBytes n ≠ [] := by
  unfold decimalBytes decimalBytesAux
  by_cases h : n < 10
  · simp [h]
  · simp [h]

lemma decimalBytesAux_congr (f₁ : Nat) :
    ∀ f₂ n, n < f₁ → n < f₂ → decimalBytesAux f₁ n = decimalBytesAux f₂ n := by
  induction f₁ with
  | zero => intro f₂ n h; omega
  | succ f ih =>
    intro f₂ n h1 h2
    cases f₂ with
    | zero => omega
    | succ f₂ =>
      rw [decimalBytesAux, decimalBytesAux]
      by_cases h : n < 10
      · rw [if_pos h, if_pos h]
      · rw [if_neg h, if_neg h]
        have hdiv : n / 10 < n := Nat.div_lt_self (by omega) (by omega)
        rw [ih f₂ (n / 10) (by omega) (by omega)]

lemma decimalBytes_unfold (n : Nat) (h : 10 ≤ n) :
    decimalBytes n = decimalBytes (n / 10) ++ [digitByte (n % 10)] := by
  unfold decimalBytes
  conv_lhs => rw [decimalBytesAux]
  rw [if_neg (by omega)]
  have hdiv : n / 10 < n := Nat.div_lt_self (by omega) (by omega)
  rw [decimalBytesAux_congr n (n / 10 + 1) (n / 10) (by omega) (by omega)]

lemma parseDigitsAux_append (l₁ l₂ : Bytes) :
    ∀ acc, parseDigitsAux acc (l₁ ++ l₂) =
      (parseDigitsAux acc l₁).bind (fun m => parseDigitsAux m l₂) := by
  induction l₁ with
  | nil => intro acc; simp [parseDigitsAux]
  | cons b tl ih =>
    intro acc
    simp only [List.cons_append, parseDigitsAux]
    by_cases hd : isDigitByte b
    · rw [if_pos hd, if_pos hd]
      exact ih (10 * acc + (b - 48))
    · rw [if_neg hd, if_neg hd]
      rfl

lemma parseDigitsAux_decimal (n : Nat) :
    ∀ acc, parseDigitsAux acc (decimalBytes n) =
      some (acc * 10 ^ (decimalBytes n).length + n) := by
  induction n using Nat.strong_induction_on with
  | _ n ih =>
    intro acc
    by_cases h : n < 10
    · have hdec : decimalBytes n = [digitByte n] := by
        unfold decimalBytes decimalBytesAux
        rw [if_pos h]
      rw [hdec]
      have hd : isDigitByte (digitByte n) = true := by
        unfold isDigitByte digitByte
        simp only [Bool.and_eq_true, decide_eq_true_eq]
        omega
      simp only [parseDigitsAux, hd, if_pos]
      unfold digitByte
      simp only [List.length_singleton, pow_one, Option.some.injEq]
      omega
    · have h10 : 10 ≤ n := by omega
      rw [decimalBytes_unfold n h10, parseDigitsAux_append]
      have hdiv : n / 10 < n := Nat.div_lt_self (by omega) (by omega)
      rw [ih (n / 10) hdiv acc]
      have hd : isDigitByte (digitByte (n % 10)) = true := by
        unfold isDigitByte digitByte
        simp only [Bool.and_eq_true, decide_eq_true_eq]
        have := Nat.mod_lt n (show 0 < 10 by omega)
        omega
      simp only [Option.some_bind, parseDigitsAux, hd, if_pos,
        List.length_append, List.length_singleton, Option.some.injEq]
      have hmod : 10 * (n / 10) + n % 10 = n := Nat.div_add_mod n 10
      have hdig : digitByte (n % 10) - 48 = n % 10 := by unfold digitByte; omega
      rw [hdig]
      have heq : 10 * (acc * 10 ^ (decimalBytes (n / 10)).length + n / 10) + n % 10 =
          acc * 10 ^ ((decimalBytes (n / 10)).length + 1) +
            (10 * (n / 10) + n % 10) := by ring
      rw [heq, hmod]

lemma parseU8_decimal (n : Nat) (h : n ≤ 255) :
    parseU8 (decimalBytes n) = some n := by
  have hne := decimalBytes_ne_nil n
  have hhead : ¬(decimalBytes n).head? = some 43 := by
    cases hd : decimalBytes n with
    | nil => exact absurd hd hne
    | cons b tl =>
      have hb := decimalBytes_digits n b (by rw [hd]; exact List.mem_cons_self _ _)
      simp only [List.head?_cons, Option.some.injEq]
      omega
  unfold parseU8
  rw [if_neg hhead]
  unfold parseU8core
  rw [if_neg (by simpa [List.isEmpty_iff] using hne)]
  rw [parseDigitsAux_decimal n 0]
  simp only [Nat.zero_mul, Nat.zero_add]
  rw [if_pos h]

lemma splitByte_no_sep (sep : Nat) (s : Bytes) (h : ∀ b ∈ s, b ≠ sep) :
    splitByte sep s = [s] := by
  induction s with
  | nil => rfl
  | cons b tl ih =>
    have hb : b ≠ sep := h b (List.mem_cons_self _ _)
    rw [splitByte, if_neg hb, ih (fun x hx => h x (List.mem_cons_of_mem _ hx))]

lemma splitByte_append_sep (sep : Nat) (s t : Bytes)
    (h : ∀ b ∈ s, b ≠ sep) :
    splitByte sep (s ++ sep :: t) = s :: splitByte sep t := by
  induction s with
  | nil => simp [splitByte]
  | cons b tl ih =>
    have hb : b ≠ sep := h b (List.mem_cons_self _ _)
    rw [List.cons_append, splitByte, if_neg hb,
      ih (fun x hx => h x (List.mem_cons_of_mem _ hx))]

lemma splitByte_joinByte (sep : Nat) :
    ∀ chunks : List Bytes, chunks ≠ [] →
      (∀ c ∈ chunks, ∀ b ∈ c, b ≠ sep) →
      splitByte sep (joinByte sep chunks) = chunks := by
  intro chunks
  induction chunks with
  | nil => intro h; exact absurd rfl h
  | cons c tl ih =>
    intro _ hall
    cases tl with
    | nil =>
      rw [joinByte]
      exact splitByte_no_sep sep c (hall c (List.mem_cons_self _ _))
    | cons c' tl' =>
      rw [joinByte, splitByte_append_sep sep c _ (hall c (List.mem_cons_self _ _)),
        ih (List.cons_ne_nil _ _) (fun x hx => hall x (List.mem_cons_of_mem _ hx))]
      exact fun h => List.noConfusion h

lemma collectU8_isSome (l : List Bytes) :
    (collectU8 l).isSome = true ↔ ∀ c ∈ l, (parseU8 c).isSome = true := by
  induction l with
  | nil => simp [collectU8]
  | cons c tl ih =>
    rw [collectU8]
    cases hc : parseU8 c with
    | none =>
      simp only [Option.isSome_none, Bool.false_eq_true, false_iff]
      intro hall
      have := hall c (List.mem_cons_self _ _)
      rw [hc] at this
      simp at this
    | some v =>
      cases ht : collectU8 tl with
      | none =>
        simp only [Option.isSome_none, Bool.false_eq_true, false_iff]
        intro hall
        have : (collectU8 tl).isSome = true :=
          ih.mpr (fun x hx => hall x (List.mem_cons_of_mem _ hx))
        rw [ht] at this
        simp at this
      | some vs =>
        simp only [Option.isSome_some, true_iff]
        intro x hx
        rcases List.mem_cons.mp hx with hx | hx
        · subst hx; rw [hc]; rfl
        · have : (collectU8 tl).isSome = true := by rw [ht]; rfl
          exact ih.mp this x hx

lemma collectU8_length (l : List Bytes) :
    ∀ vs, collectU8 l = some vs → vs.length = l.length := by
  induction l with
  | nil => intro vs h; rw [collectU8] at h; cases h; rfl
  | cons c tl ih =>
    intro vs h
    rw [collectU8] at h
    cases hc : parseU8 c with
    | none => rw [hc] at h; cases h
    | some v =>
      rw [hc] at h
      cases ht : collectU8 tl with
      | none => rw [ht] at h; cases h
      | some vs' =>
        rw [ht] at h
        cases h
        simp [ih vs' ht]

/-- C6. Host-port round trip: for every host-port value with in-range
fields (four `u8` octets and a `u16` port) parsing the emitted textual form
returns the same value. -/
theorem hostPort_roundtrip (hp : HostPort) (h0 : hp.ip0 ≤ 255)
    (h1 : hp.ip1 ≤ 255) (h2 : hp.ip2 ≤ 255) (h3 : hp.ip3 ≤ 255)
    (hport : hp.port ≤ 65535) :
    HostPort.fromStr (HostPort.toWire hp) = some hp := by
  obtain ⟨a, b, c, d, pt⟩ := hp
  simp only at h0 h1 h2 h3 hport
  have e1 : pt >>> 8 = pt / 256 := by
    rw [Nat.shiftRight_eq_div_pow]
  have e2 : pt &&& 255 = pt % 256 := by
    have := Nat.and_pow_two_sub_one_eq_mod pt 8
    simpa using this
  have hb1 : pt >>> 8 ≤ 255 := by rw [e1]; omega
  have hb2 : pt &&& 255 ≤ 255 := by rw [e2]; omega
  unfold HostPort.toWire HostPort.fromStr
  rw [splitByte_joinByte 44 _ (by simp) ?_]
  · rw [collectU8, parseU8_decimal a h0,
      collectU8, parseU8_decimal b h1,
      collectU8, parseU8_decimal c h2,
      collectU8, parseU8_decimal d h3,
      collectU8, parseU8_decimal _ hb1,
      collectU8, parseU8_decimal _ hb2,
      collectU8]
    simp only [List.length_cons, List.length_nil]
    rw [if_neg (by omega)]
    simp only [List.getD_cons_zero, List.getD_cons_succ, Option.some.injEq,
      HostPort.mk.injEq]
    refine ⟨trivial, trivial, trivial, trivial, ?_⟩
    rw [e1, e2, Nat.shiftLeft_eq]
    have hpow : (2 : Nat) ^ 8 = 256 := by norm_num
    rw [hpow]
    omega
  · intro ch hch x hx
    have hdig : 48 ≤ x ∧ x ≤ 57 := by
      simp only [List.mem_cons, List.not_mem_nil, or_false] at hch
      rcases hch with h | h | h | h | h | h <;>
        (subst h; exact decimalBytes_digits _ x hx)
    omega

/-- C6 witness: the localhost/8888 host-port round-trips. -/
theorem hostPort_roundtrip_witness :
    HostPort.fromStr (HostPort.toWire ⟨127, 0, 0, 1, 8888⟩)
      = some ⟨127, 0, 0, 1, 8888⟩ :=
  hostPort_roundtrip ⟨127, 0, 0, 1, 8888⟩ (by decide) (by decide) (by decide)
    (by decide) (by decide)

/-- C7 counterexample: the input `1,2,3,4,5,6,7` has seven comma-separated
components, yet the parser accepts it (using the first six), so a parse
with seven or more components does not fail as the claim states. -/
theorem hostPort_seven_components_accepted :
    (splitByte 44 (strB "1,2,3,4,5,6,7")).length = 7 ∧
    HostPort.fromStr (strB "1,2,3,4,5,6,7") = some ⟨1, 2, 3, 4, 1286⟩ := by
  decide

/-- C7 (amended). A host-port string parses successfully exactly when it
has at least six comma-separated components and every component (including
any beyond the sixth) parses as a `u8` in `0..=255`; the components past
the sixth are ignored in the result. -/
theorem hostPort_parse_iff (s : Bytes) :
    (HostPort.fromStr s).isSome = true ↔
      6 ≤ (splitByte 44 s).length ∧
        ∀ ch ∈ splitByte 44 s, (parseU8 ch).isSome = true := by
  cases hc : collectU8 (splitByte 44 s) with
  | none =>
    simp only [HostPort.fromStr, hc, Option.isSome_none, Bool.false_eq_true,
      false_iff, not_and]
    intro _ hall
    have := (collectU8_isSome (splitByte 44 s)).mpr hall
    rw [hc] at this
    simp at this
  | some nums =>
    have hlen := collectU8_length (splitByte 44 s) nums hc
    simp only [HostPort.fromStr, hc]
    by_cases h6 : nums.length < 6
    · rw [if_pos h6]
      simp only [Option.isSome_none, Bool.false_eq_true, false_iff, not_and]
      intro hge _
      omega
    · rw [if_neg h6]
      simp only [Option.isSome_some, true_iff]
      refine ⟨by omega, ?_⟩
      have : (collectU8 (splitByte 44 s)).isSome = true := by rw [hc]; rfl
      exact (collectU8_isSome (splitByte 44 s)).mp this

end FtpServer
